import Mathlib

/-!
Verification of the concord room/instance/membership engine
(`src/common/Room.ts`).  The source file concatenates three evolutionary
variants of the `Room` class; the first variant (the `Room` /
`InstanceManager` / `MemberManager` split) is embedded below as the `V1`
namespace, and the third variant (the monolithic `Room` with
`memberCount`, `getReplyPrefix` and per-instance reply composition) as
the `V3` namespace.  TypeScript objects with reference identity
(`RoomInstance`, `RoomMember`) are given explicit identity fields
(`iid`, `index`); freshness of those identities is an invariant proved
below, under which structural equality on the identity field coincides
with JavaScript reference equality.  External I/O (webhook creation,
thread start, webhook sends, collector stops) is modelled as a list of
emitted `Effect`s, and the asynchronous `.catch` handler of a failed
send is modelled as a separate state transition, matching the
single-threaded event-loop semantics.
-/

namespace Concord

/-- A Discord guild member, as used by the room engine: only its id,
display name and avatar URL are consumed. -/
structure GuildMember where
  id : String
  displayName : String
  avatarURL : String
deriving Repr, DecidableEq

/-- A room member record (`RoomMember` interface).  `index` is the
creation index (`this.members.length` at creation in V1), which also
serves as the object identity.  `instanceIid` records the owning
instance (the `instance` back-reference of the V1 interface). -/
structure RoomMember where
  memberId : String
  instanceIid : Nat
  anonymous : Bool
  displayName : String
  avatar : String
  index : Nat
deriving Repr, DecidableEq

/-- A channel instance (`RoomInstance`).  `iid` is the object identity
(a fresh number per `createInstance` call, modelling JS reference
identity); `hasCollector` records whether `collectMessages` installed a
message collector. -/
structure RoomInstance where
  iid : Nat
  threadId : String
  members : List RoomMember
  hasCollector : Bool
deriving Repr, DecidableEq

/-- Room type selector of the `Room` constructor. -/
inductive RoomType where
  | oneOnOne
  | party
deriving Repr, DecidableEq

/-- The mutable state of one V1 room: the `InstanceManager`'s instance
list, the `MemberManager`'s room-wide member list, the capacity
configuration fixed by the constructor, the client identity used for
fallback sender names, and the fresh-identity counter. -/
structure RoomState where
  id : String
  maxInstances : Option Nat
  maxMembersPerInstance : Option Nat
  instances : List RoomInstance
  roomMembers : List RoomMember
  nextIid : Nat
  clientUsername : Option String
  clientAvatar : Option String
deriving Repr, DecidableEq

/-- An inbound Discord message, restricted to the fields the engine
reads.  `member` is `message.member` (absent outside a guild),
`authorId` is `message.author.id`, `authorUsername` is
`message.author.username` (used by the V3 reply lookup), and
`attachments` holds the attachment URLs. -/
structure Message where
  channelId : String
  member : Option GuildMember
  authorId : String
  authorUsername : String
  content : String
  attachments : List String
deriving Repr, DecidableEq

/-- Webhook send options (`WebhookMessageCreateOptions`), restricted to
the fields the engine sets.  A join embed is represented by its footer
text. -/
structure Payload where
  username : Option String
  avatarURL : Option String
  content : Option String
  threadId : Option String
  embedFooter : Option String
deriving Repr, DecidableEq

/-- Externally visible effects emitted by room operations. -/
inductive Effect where
  | fetchOrCreateWebhook (channelId : String)
  | startThread (channelId : String) (name : String)
  | send (targetIid : Nat) (payload : Payload)
  | stopCollector (iid : Nat)
  | promptJoin (instIid : Nat) (userId : String) (timeoutMs : Nat)
  | deleteAfterDelay (delayMs : Nat)
deriving Repr, DecidableEq

/-- Discord channel kinds, restricted to the only distinction
`createThread` makes. -/
inductive ChannelType where
  | guildText
  | other
deriving Repr, DecidableEq

/-- Outcome of a webhook send promise.  The source's `.catch` never
inspects the rejection reason; the two failure kinds are the spec's
taxonomy (`ChannelGone` and `TransientSendError`). -/
inductive SendResult where
  | ok
  | channelGone
  | transient
deriving Repr, DecidableEq

/-- JavaScript truthiness of `number | undefined`: `undefined` and `0`
are falsy. -/
def numTruthy : Option Nat → Bool
  | none => false
  | some n => n != 0

/-- JavaScript truthiness of `string | undefined`: `undefined` and the
empty string are falsy. -/
def strTruthy : Option String → Bool
  | none => false
  | some s => s != ""

/-- The guard `cap && len >= cap` of `createMember` / `createThread`,
with JS truthiness on the optional cap. -/
def capBlocked (cap : Option Nat) (len : Nat) : Bool :=
  match cap with
  | none => false
  | some m => m != 0 && decide (m ≤ len)

/-- Array.prototype.indexOf on instance identity (JS `===` on the
instance objects): first index, `-1` when absent. -/
def jsIndexOfIid : List RoomInstance → Nat → Int
  | [], _ => -1
  | i :: rest, iid =>
    if i.iid = iid then 0
    else
      let r := jsIndexOfIid rest iid
      if r = -1 then -1 else r + 1

/-- Array.prototype.splice(k, 1): negative `k` counts from the end
(clamped at 0), an out-of-range `k` removes nothing. -/
def spliceRemoveOne (l : List α) (k : Int) : List α :=
  let n : Int := l.length
  let start : Nat := (if k < 0 then max (n + k) 0 else min k n).toNat
  l.take start ++ l.drop (start + 1)

/-- Math.floor(Math.random() * 6) is passed in as `r`; this is
`getAnonymousAvatarURL` on that draw. -/
def getAnonymousAvatarURL (r : Nat) : String :=
  "https://cdn.discordapp.com/embed/avatars/" ++ toString (r % 6) ++ ".png"

namespace V1

/-- The `Room` constructor: a `"1-on-1"` room fixes `maxInstances = 2`
and `maxMembersPerInstance = 1`; a `"Party"` room leaves both
undefined.  The generated id and the client identity come from outside
the core. -/
def mkRoom (rt : RoomType) (id : String) (cu ca : Option String) : RoomState :=
  { id := id
    maxInstances := if rt = .oneOnOne then some 2 else none
    maxMembersPerInstance := if rt = .oneOnOne then some 1 else none
    instances := []
    roomMembers := []
    nextIid := 0
    clientUsername := cu
    clientAvatar := ca }

/-- InstanceManager.getInstance: first instance whose thread id equals
the given id. -/
def getInstance (s : RoomState) (threadId : String) : Option RoomInstance :=
  s.instances.find? (fun i => i.threadId = threadId)

/-- InstanceManager.getAllInstancesExcept: `instances.filter(i => i !==
instance)`; reference inequality is identity-field inequality. -/
def getAllInstancesExcept (s : RoomState) (inst : RoomInstance) : List RoomInstance :=
  s.instances.filter (fun i => i.iid ≠ inst.iid)

/-- The loop body of `InstanceManager.sendTo`: the `options` object is
re-spread each iteration with the current target's thread id, and a
falsy `username` is replaced (persistently, since `options` is
reassigned) by the client identity. -/
def sendToGo (cu ca : Option String) (targets : List RoomInstance) (options : Payload) :
    List Effect :=
  match targets with
  | [] => []
  | inst :: rest =>
    let o1 : Payload := { options with threadId := some inst.threadId }
    let o2 : Payload :=
      if strTruthy o1.username then o1
      else { o1 with username := cu, avatarURL := ca }
    .send inst.iid o2 :: sendToGo cu ca rest o2

/-- InstanceManager.sendTo (the synchronous part: the sends are issued;
each rejection later runs the `.catch` handler, modelled separately by
`catchHandler`). -/
def sendTo (s : RoomState) (targets : List RoomInstance) (options : Payload) : List Effect :=
  sendToGo s.clientUsername s.clientAvatar targets options

/-- InstanceManager.deleteInstance: stop the passed instance's
collector (if any), then `splice(indexOf(instance), 1)` the instance
list — note the absent case yields `indexOf = -1` and `splice(-1, 1)`
removes the *last* element. -/
def deleteInstance (s : RoomState) (inst : RoomInstance) : RoomState × List Effect :=
  ({ s with instances := spliceRemoveOne s.instances (jsIndexOfIid s.instances inst.iid) },
   if inst.hasCollector then [.stopCollector inst.iid] else [])

/-- The `.catch(() => this.deleteInstance(instance))` handler attached
to every webhook send: it ignores the rejection reason entirely. -/
def catchHandler (s : RoomState) (inst : RoomInstance) (_e : SendResult) :
    RoomState × List Effect :=
  deleteInstance s inst

/-- Settlement of one webhook send promise: a fulfilled send does
nothing; any rejection runs the catch handler. -/
def webhookSendSettle (s : RoomState) (inst : RoomInstance) (res : SendResult) :
    RoomState × List Effect :=
  match res with
  | .ok => (s, [])
  | e => catchHandler s inst e

/-- InstanceManager.createInstance: wrap the thread and webhook in a new
instance (fresh identity), install its message collector, push it. -/
def createInstance (s : RoomState) (threadId : String) : RoomInstance × RoomState :=
  let inst : RoomInstance :=
    { iid := s.nextIid, threadId := threadId, members := [], hasCollector := true }
  (inst, { s with instances := s.instances ++ [inst], nextIid := s.nextIid + 1 })

/-- The member record built by `MemberManager.createMember`: anonymous
members get `Anonymous {members.length + 1}` and a random default
avatar (draw `r`); others carry their guild identity. -/
def mkRoomMember (s : RoomState) (instIid : Nat) (gm : GuildMember) (anonymous : Bool)
    (r : Nat) : RoomMember :=
  { memberId := gm.id
    instanceIid := instIid
    anonymous := anonymous
    displayName :=
      if anonymous then "Anonymous " ++ toString (s.roomMembers.length + 1)
      else gm.displayName
    avatar := if anonymous then getAnonymousAvatarURL r else gm.avatarURL
    index := s.roomMembers.length }

/-- instance.members.push(member), applied to the aliased list entry
(identified by `iid`). -/
def pushMemberToInstance (l : List RoomInstance) (iid : Nat) (m : RoomMember) :
    List RoomInstance :=
  l.map (fun i => if i.iid = iid then { i with members := i.members ++ [m] } else i)

/-- createMemberJoinEmbed: only the footer text matters to the model. -/
def memberJoinEmbedFooter (m : RoomMember) : String :=
  m.displayName ++ " joined the room"

/-- Room.sendJoinMessage: fan the join embed to every instance except
the joiner's own. -/
def sendJoinMessage (s : RoomState) (inst : RoomInstance) (m : RoomMember) : List Effect :=
  sendTo s (getAllInstancesExcept s inst)
    { username := none, avatarURL := none, content := none, threadId := none,
      embedFooter := some (memberJoinEmbedFooter m) }

/-- MemberManager.onMemberCreate: push to the room-wide list, push to
the instance's list, then broadcast the join embed. -/
def onMemberCreate (s : RoomState) (inst : RoomInstance) (m : RoomMember) :
    RoomState × List Effect :=
  let s1 : RoomState :=
    { s with roomMembers := s.roomMembers ++ [m]
             instances := pushMemberToInstance s.instances inst.iid m }
  (s1, sendJoinMessage s1 inst m)

/-- MemberManager.createMember: refuse (returning `undefined`) when the
per-instance cap is truthy and the instance is full; otherwise build
the member and run `onMemberCreate`. -/
def createMember (s : RoomState) (inst : RoomInstance) (gm : GuildMember) (anonymous : Bool)
    (r : Nat) : Option RoomMember × RoomState × List Effect :=
  if capBlocked s.maxMembersPerInstance inst.members.length then (none, s, [])
  else
    let m := mkRoomMember s inst.iid gm anonymous r
    let (s1, effs) := onMemberCreate s inst m
    (some m, s1, effs)

/-- Room.getOrCreateMember: resolve the instance by channel id (throwing
when absent), require `message.member`, return the existing member for
the author or fall through (`??`) to `createMember(instance,
message.member, false)`. -/
def getOrCreateMember (s : RoomState) (msg : Message) (r : Nat) :
    Except String (Option RoomMember × RoomState × List Effect) :=
  match getInstance s msg.channelId with
  | none => .error ("Instance not found")
  | some inst =>
    match msg.member with
    | none => .error ("Member not found")
    | some gm =>
      match inst.members.find? (fun m => m.memberId = msg.authorId) with
      | some m => .ok (some m, s, [])
      | none => .ok (createMember s inst gm false r)

/-- InstanceManager.synchronizeMessage: drop when `message.member` is
absent or `message.content` is falsy; resolve the source instance by
channel id (drop when absent); resolve or auto-join the sender (drop
when `undefined`); then send the content, under the sender's display
identity, to every instance except the source.  The source's
`if (!otherInstances) return` is vacuous (an array is always truthy)
and disappears in the embedding. -/
def synchronizeMessage (s : RoomState) (msg : Message) (r : Nat) :
    Except String (RoomState × List Effect) :=
  if msg.member = none ∨ msg.content = "" then .ok (s, [])
  else
    match getInstance s msg.channelId with
    | none => .ok (s, [])
    | some inst =>
      match getOrCreateMember s msg r with
      | .error e => .error e
      | .ok (none, s1, effs) => .ok (s1, effs)
      | .ok (some rm, s1, effs) =>
        let messageOptions : Payload :=
          { username := some rm.displayName, avatarURL := some rm.avatar,
            content := some msg.content, threadId := none, embedFooter := none }
        .ok (s1, effs ++ sendTo s1 (getAllInstancesExcept s1 inst) messageOptions)

/-- Room.createThread: throw on a non-text channel; return `false`
before any effect when the instance cap is truthy and reached;
otherwise fetch or create the channel webhook, start the thread, create
the instance and the initiator's member. -/
def createThread (s : RoomState) (ct : ChannelType) (channelId threadId : String)
    (initiator : GuildMember) (anonymous : Bool) (r : Nat) :
    Except String (Bool × RoomState × List Effect) :=
  if ct ≠ .guildText then .error ("Invalid text channel")
  else if capBlocked s.maxInstances s.instances.length then .ok (false, s, [])
  else
    let effs0 : List Effect :=
      [.fetchOrCreateWebhook channelId, .startThread channelId ("Room " ++ s.id)]
    let (inst, s1) := createInstance s threadId
    let (_, s2, effs1) := createMember s1 inst initiator anonymous r
    .ok (true, s2, effs0 ++ effs1)

/-- The externally triggered operations of a V1 room.  `createInstance`
occurs only inside `createThread` (its sole call site); a
`deleteInstanceOp` event is either an explicit teardown or the deferred
`.catch` handler of a failed send. -/
inductive Op where
  | createThreadOp (ct : ChannelType) (channelId threadId : String) (gm : GuildMember)
      (anonymous : Bool) (r : Nat)
  | getOrCreateMemberOp (msg : Message) (r : Nat)
  | createMemberOp (instIid : Nat) (gm : GuildMember) (anonymous : Bool) (r : Nat)
  | syncMessageOp (msg : Message) (r : Nat)
  | deleteInstanceOp (inst : RoomInstance)

/-- State transition of one operation (effects discarded; a thrown
exception leaves the state unchanged). -/
def stepState (s : RoomState) (op : Op) : RoomState :=
  match op with
  | .createThreadOp ct cid tid gm a r =>
    match createThread s ct cid tid gm a r with
    | .ok (_, s1, _) => s1
    | .error _ => s
  | .getOrCreateMemberOp msg r =>
    match getOrCreateMember s msg r with
    | .ok (_, s1, _) => s1
    | .error _ => s
  | .createMemberOp iid gm a r =>
    match s.instances.find? (fun i => i.iid = iid) with
    | some inst => (createMember s inst gm a r).2.1
    | none => s
  | .syncMessageOp msg r =>
    match synchronizeMessage s msg r with
    | .ok (s1, _) => s1
    | .error _ => s
  | .deleteInstanceOp inst => (deleteInstance s inst).1

/-- Run a sequence of operations. -/
def run (s : RoomState) (ops : List Op) : RoomState :=
  ops.foldl stepState s

/-- Modelled from the spec: `canAdmit` (§4.3) — admission is possible
iff the per-instance cap is undefined or the instance is under it.
(The guard inside `createMember` is its source counterpart.) -/
def canAdmit (s : RoomState) (inst : RoomInstance) : Bool :=
  match s.maxMembersPerInstance with
  | none => true
  | some m => decide (inst.members.length < m)

/-- A choice offered by the interactive join prompt. -/
inductive JoinChoice where
  | joinVisible
  | joinAnonymous
deriving Repr, DecidableEq

/-- Outcome of the interactive join-confirmation wait. -/
inductive JoinOutcome where
  | chosen (c : JoinChoice)
  | timedOut
deriving Repr, DecidableEq

/-- Modelled from the spec: the interactive join-confirmation flow
(`requestJoin`, §4.3), which is absent from src/ — src's
`getOrCreateMember` silently refuses when the instance is full.  A
prompt is offered to the sender with a 30-second deadline; the prompt
self-deletes after 5 seconds past resolution; a timeout creates no
member and leaves the state untouched; a choice attempts creation with
the chosen anonymity (which may still fail on a capacity race). -/
def requestJoin (s : RoomState) (inst : RoomInstance) (msg : Message) (gm : GuildMember)
    (outcome : JoinOutcome) (r : Nat) : Option RoomMember × RoomState × List Effect :=
  let promptEff : Effect := .promptJoin inst.iid msg.authorId 30000
  match outcome with
  | .timedOut => (none, s, [promptEff, .deleteAfterDelay 5000])
  | .chosen c =>
    let (m?, s1, effs) := createMember s inst gm (c = .joinAnonymous) r
    (m?, s1, promptEff :: effs ++ [.deleteAfterDelay 5000])

/-- Modelled from the spec: the canonical `resolveOrJoinParticipant`
(§4.2) — resolve the existing member, silently auto-join when the
instance can admit, and otherwise offer the interactive
join-confirmation flow instead of silently dropping. -/
def resolveOrJoinParticipant (s : RoomState) (msg : Message) (outcome : JoinOutcome)
    (r : Nat) : Except String (Option RoomMember × RoomState × List Effect) :=
  match getInstance s msg.channelId with
  | none => .error ("Instance not found")
  | some inst =>
    match msg.member with
    | none => .error ("Member not found")
    | some gm =>
      match inst.members.find? (fun m => m.memberId = msg.authorId) with
      | some m => .ok (some m, s, [])
      | none =>
        if canAdmit s inst then .ok (createMember s inst gm false r)
        else .ok (requestJoin s inst msg gm outcome r)

end V1

namespace V3

/-- Room member of the third source variant (no instance
back-reference; `index` is taken from the room's `memberCount` and is
the object identity). -/
structure V3Member where
  memberId : String
  anonymous : Bool
  displayName : String
  index : Nat
  avatar : String
deriving Repr, DecidableEq

/-- Room instance of the third source variant. -/
structure V3Instance where
  iid : Nat
  threadId : String
  members : List V3Member
  hasCollector : Bool
deriving Repr, DecidableEq

/-- State of a third-variant room: the instance list lives directly on
the room, and `memberCount` replaces the room-wide member list as the
anonymous-name counter. -/
structure V3State where
  id : String
  maxInstances : Option Nat
  maxMembersPerInstance : Option Nat
  instances : List V3Instance
  memberCount : Nat
  nextIid : Nat
  clientUsername : Option String
  clientAvatar : Option String
deriving Repr, DecidableEq

/-- discord.js `quote`: a `> ` block-quote line. -/
def quoteFmt (s : String) : String := "> " ++ s

/-- discord.js `userMention`. -/
def userMention (id : String) : String := "<@" ++ id ++ ">"

/-- Contiguous-subsequence test on character lists. -/
def containsSeq (hay sub : List Char) : Bool :=
  match hay with
  | [] => sub.isEmpty
  | _ :: t => sub.isPrefixOf hay || containsSeq t sub

/-- String.prototype.includes (substring containment). -/
def jsIncludes (hay sub : String) : Bool := containsSeq hay.toList sub.toList

/-- Room.getAllMembers: flatten the per-instance member lists. -/
def getAllMembers (s : V3State) : List V3Member :=
  s.instances.flatMap (fun i => i.members)

/-- Room.findMember: first room member whose display name *contains*
the given name. -/
def findMember (s : V3State) (name : String) : Option V3Member :=
  (getAllMembers s).find? (fun m => jsIncludes m.displayName name)

/-- Room.getReplyPrefix (source name `getReplyPrefix`): look the
replied-to author up by username, quote the replied-to content when
non-empty, and attribute: a live mention of the raw author when no room
member matches, a live mention of the member when they are not
anonymous or belong to the target instance, and the anonymous display
name otherwise.  Membership (`instance.members.includes`) is reference
equality, which coincides with structural equality under the `index`
freshness invariant. -/
def getReplyHeader (s : V3State) (inst : V3Instance) (repliedTo : Message) : String :=
  let roomMember := findMember s repliedTo.authorUsername
  let quoted := if repliedTo.content.length > 0 then quoteFmt repliedTo.content else ""
  let mention :=
    match roomMember with
    | none => userMention repliedTo.authorId
    | some m =>
      if !m.anonymous || inst.members.contains m then userMention m.memberId
      else "@" ++ m.displayName
  quoted ++ "\n" ++ mention

/-- Room.createRoomMember of the third variant: the anonymous number is
`memberCount + 1`. -/
def createRoomMember (s : V3State) (gm : GuildMember) (anonymous : Bool) (r : Nat) :
    V3Member :=
  { memberId := gm.id
    anonymous := anonymous
    index := s.memberCount
    displayName :=
      if anonymous then "Anonymous " ++ toString (s.memberCount + 1) else gm.displayName
    avatar := if anonymous then getAnonymousAvatarURL r else gm.avatarURL }

/-- Room.sendToAllExcept of the third variant: join-embed broadcasts
under the client identity, excluding the given instance by thread id. -/
def sendToAllExcept (s : V3State) (inst : V3Instance) (options : Payload) : List Effect :=
  (s.instances.filter (fun i => i.threadId ≠ inst.threadId)).map (fun i =>
    .send i.iid { options with threadId := some i.threadId,
                               username := s.clientUsername,
                               avatarURL := s.clientAvatar })

/-- Room.onRoomMemberCreate of the third variant: bump `memberCount`,
broadcast the join embed, push to the instance's member list. -/
def onRoomMemberCreate (s : V3State) (inst : V3Instance) (m : V3Member) :
    V3State × List Effect :=
  let s1 : V3State := { s with memberCount := s.memberCount + 1 }
  let effs := sendToAllExcept s1 inst
    { username := none, avatarURL := none, content := none, threadId := none,
      embedFooter := some (m.displayName ++ " joined the room") }
  let s2 : V3State :=
    { s1 with instances := s1.instances.map (fun i =>
        if i.iid = inst.iid then { i with members := i.members ++ [m] } else i) }
  (s2, effs)

/-- Room.createInstanceRoomMember of the third variant: the same
truthiness-guarded capacity check as V1. -/
def createInstanceRoomMember (s : V3State) (inst : V3Instance) (gm : GuildMember)
    (anonymous : Bool) (r : Nat) : Option V3Member × V3State × List Effect :=
  if capBlocked s.maxMembersPerInstance inst.members.length then (none, s, [])
  else
    let m := createRoomMember s gm anonymous r
    let (s1, effs) := onRoomMemberCreate s inst m
    (some m, s1, effs)

/-- Room.getOrCreateRoomMember of the third variant. -/
def getOrCreateRoomMember (s : V3State) (msg : Message) (r : Nat) :
    Except String (Option V3Member × V3State × List Effect) :=
  match s.instances.find? (fun i => i.threadId = msg.channelId) with
  | none => .error ("Instance not found")
  | some inst =>
    match inst.members.find? (fun m => m.memberId = msg.authorId) with
    | some m => .ok (some m, s, [])
    | none =>
      match msg.member with
      | none => .error ("Member not found")
      | some gm => .ok (createInstanceRoomMember s inst gm false r)

/-- Room.synchronizeMessage of the third variant: drop on absent member
or falsy content; resolve or join the sender; then, per target instance
(every instance whose thread id differs from the source channel), send
the content, prefixed — when the message is a reply (`repliedTo` models
`message.reference ? await message.fetchReference() : undefined`) — by
the reply header computed against that target instance.  The target
list is computed in the source before member resolution, but its
entries alias the live instance objects, so the post-resolution state
is the faithful reading. -/
def synchronizeMessage (s : V3State) (msg : Message) (repliedTo : Option Message)
    (r : Nat) : Except String (V3State × List Effect) :=
  if msg.member = none ∨ msg.content = "" then .ok (s, [])
  else
    match getOrCreateRoomMember s msg r with
    | .error e => .error e
    | .ok (none, s1, effs) => .ok (s1, effs)
    | .ok (some rm, s1, effs) =>
      let targets := s1.instances.filter (fun i => i.threadId ≠ msg.channelId)
      let msgEffs := targets.map (fun i =>
        Effect.send i.iid
          { username := some rm.displayName, avatarURL := some rm.avatar,
            threadId := some i.threadId, embedFooter := none,
            content := some
              (match repliedTo with
               | some rt => getReplyHeader s1 i rt ++ " " ++ msg.content
               | none => msg.content) })
      .ok (s1, effs ++ msgEffs)

end V3

/-! Lemmas about the JavaScript array-primitive embeddings. -/

theorem jsIndexOfIid_eq_neg_one {l : List RoomInstance} {iid : Nat}
    (h : iid ∉ l.map (fun i => i.iid)) : jsIndexOfIid l iid = -1 := by
  induction l with
  | nil => rfl
  | cons a t ih =>
    simp only [List.map_cons, List.mem_cons, not_or] at h
    simp only [jsIndexOfIid]
    rw [if_neg (fun hc => h.1 hc.symm), ih h.2]
    simp

theorem jsIndexOfIid_nonneg {l : List RoomInstance} {iid : Nat}
    (h : iid ∈ l.map (fun i => i.iid)) : 0 ≤ jsIndexOfIid l iid := by
  induction l with
  | nil => simp at h
  | cons a t ih =>
    simp only [jsIndexOfIid]
    by_cases ha : a.iid = iid
    · simp [ha]
    · simp only [List.map_cons, List.mem_cons] at h
      rcases h with h | h
      · exact absurd h.symm ha
      · have := ih h
        rw [if_neg ha]
        split
        · omega
        · omega

theorem spliceRemoveOne_neg_one (l : List α) : spliceRemoveOne l (-1) = l.dropLast := by
  cases l with
  | nil => rfl
  | cons a t =>
    simp only [spliceRemoveOne, List.length_cons]
    have h1 : ((-1 : Int) < 0) := by omega
    rw [if_pos h1]
    have h2 : ((t.length + 1 : Nat) : Int) + (-1) = (t.length : Int) := by push_cast; omega
    rw [h2]
    have h3 : max ((t.length : Int)) 0 = (t.length : Int) := by omega
    rw [h3]
    have h4 : ((t.length : Int)).toNat = t.length := by omega
    rw [h4]
    rw [List.dropLast_eq_take]
    have h5 : (a :: t).drop (t.length + 1) = [] := by
      have : (a :: t).length ≤ t.length + 1 := by simp
      exact List.drop_eq_nil_of_le this
    rw [h5, List.append_nil]
    simp

theorem spliceRemoveOne_cons_succ (a : α) (t : List α) (k : Int) (hk : 0 ≤ k) :
    spliceRemoveOne (a :: t) (k + 1) = a :: spliceRemoveOne t k := by
  simp only [spliceRemoveOne, List.length_cons]
  have hns : ¬ (k + 1 < 0) := by omega
  rw [if_neg hns]
  by_cases hkn : k < 0
  · omega
  · rw [if_neg hkn]
    have hmin : (min (k + 1) ((t.length + 1 : Nat) : Int)).toNat
        = (min k ((t.length : Nat) : Int)).toNat + 1 := by
      push_cast
      omega
    rw [hmin]
    simp [List.take_succ_cons, List.drop_succ_cons]

theorem spliceRemoveOne_zero (a : α) (t : List α) :
    spliceRemoveOne (a :: t) 0 = t := by
  simp only [spliceRemoveOne, List.length_cons]
  have h0 : ¬ ((0 : Int) < 0) := by omega
  rw [if_neg h0]
  have h1 : (min (0 : Int) ((t.length + 1 : Nat) : Int)).toNat = 0 := by
    push_cast
    omega
  rw [h1]
  simp

theorem spliceRemoveOne_sublist (l : List α) (k : Int) :
    List.Sublist (spliceRemoveOne l k) l := by
  unfold spliceRemoveOne
  set s := (if k < 0 then max ((l.length : Int) + k) 0 else min k (l.length : Int)).toNat with hs
  have h1 : List.Sublist (l.drop (s + 1)) (l.drop s) := by
    rw [← List.drop_drop]
    exact List.drop_sublist 1 (l.drop s)
  calc List.Sublist (l.take s ++ l.drop (s + 1)) (l.take s ++ l.drop s) := h1.append_left _
    _ = l := List.take_append_drop s l

theorem filter_eq_self_of_iid_not_mem {l : List RoomInstance} {iid : Nat}
    (h : iid ∉ l.map (fun i => i.iid)) :
    l.filter (fun i => i.iid ≠ iid) = l := by
  rw [List.filter_eq_self]
  intro a ha
  simp only [ne_eq, decide_eq_true_eq]
  intro hc
  exact h (by simpa [hc.symm] using List.mem_map_of_mem (fun i => i.iid) ha)

theorem splice_indexOf_eq_filter {l : List RoomInstance} {inst : RoomInstance}
    (hN : (l.map (fun i => i.iid)).Nodup) (hmem : inst ∈ l) :
    spliceRemoveOne l (jsIndexOfIid l inst.iid) = l.filter (fun i => i.iid ≠ inst.iid) := by
  induction l with
  | nil => cases hmem
  | cons a t ih =>
    simp only [List.map_cons, List.nodup_cons] at hN
    by_cases ha : a.iid = inst.iid
    · have hnt : inst.iid ∉ t.map (fun i => i.iid) := by
        rw [← ha]; exact hN.1
      simp only [jsIndexOfIid, if_pos ha]
      rw [spliceRemoveOne_zero]
      have hfc : (a :: t).filter (fun i => i.iid ≠ inst.iid) = t := by
        rw [List.filter_cons]
        have hfalse : (decide (a.iid ≠ inst.iid)) = false := by simp [ha]
        simp only [hfalse, Bool.false_eq_true, if_false]
        exact filter_eq_self_of_iid_not_mem hnt
      rw [hfc]
    · have hmt : inst ∈ t := by
        rcases List.mem_cons.mp hmem with h | h
        · subst h
          exact absurd rfl ha
        · exact h
      have hmmap : inst.iid ∈ t.map (fun i => i.iid) := List.mem_map_of_mem _ hmt
      have hr := jsIndexOfIid_nonneg hmmap
      have hrne : jsIndexOfIid t inst.iid ≠ -1 := by omega
      simp only [jsIndexOfIid, if_neg ha, if_neg hrne]
      rw [spliceRemoveOne_cons_succ a t _ hr]
      rw [ih hN.2 hmt]
      rw [List.filter_cons]
      simp [ha]

theorem mem_filter_ne_iid {l : List RoomInstance} {inst j : RoomInstance} :
    j ∈ l.filter (fun i => i.iid ≠ inst.iid) ↔ j ∈ l ∧ j.iid ≠ inst.iid := by
  simp [List.mem_filter]

namespace V1

/-- deleteInstance on an instance absent from the list: `indexOf`
returns `-1` and `splice(-1, 1)` drops the last element. -/
theorem deleteInstance_absent {s : RoomState} {inst : RoomInstance}
    (h : inst.iid ∉ s.instances.map (fun i => i.iid)) :
    (deleteInstance s inst).1.instances = s.instances.dropLast := by
  simp only [deleteInstance]
  rw [jsIndexOfIid_eq_neg_one h, spliceRemoveOne_neg_one]

/-- deleteInstance on a present instance (identities unique): exactly
that instance is removed. -/
theorem deleteInstance_present {s : RoomState} {inst : RoomInstance}
    (hN : (s.instances.map (fun i => i.iid)).Nodup) (hmem : inst ∈ s.instances) :
    (deleteInstance s inst).1.instances
      = s.instances.filter (fun i => i.iid ≠ inst.iid) := by
  simp only [deleteInstance]
  exact splice_indexOf_eq_filter hN hmem

theorem deleteInstance_roomMembers (s : RoomState) (inst : RoomInstance) :
    (deleteInstance s inst).1.roomMembers = s.roomMembers := rfl

theorem deleteInstance_effects (s : RoomState) (inst : RoomInstance) :
    (deleteInstance s inst).2
      = if inst.hasCollector then [Effect.stopCollector inst.iid] else [] := rfl

end V1

/-- The instance ids targeted by a list of effects, in order. -/
def sendTargets (effs : List Effect) : List Nat :=
  effs.filterMap (fun e => match e with | .send t _ => some t | _ => none)

namespace V1

theorem sendTargets_sendToGo (cu ca : Option String) (targets : List RoomInstance)
    (options : Payload) :
    sendTargets (sendToGo cu ca targets options) = targets.map (fun i => i.iid) := by
  induction targets generalizing options with
  | nil => rfl
  | cons a t ih =>
    simp only [sendToGo, sendTargets, List.filterMap_cons]
    rw [← sendTargets]
    rw [ih]
    rfl

theorem sendToGo_content (cu ca : Option String) (targets : List RoomInstance)
    (options : Payload) :
    ∀ t p, Effect.send t p ∈ sendToGo cu ca targets options →
      p.content = options.content := by
  induction targets generalizing options with
  | nil => intro t p h; cases h
  | cons a rest ih =>
    intro t p h
    simp only [sendToGo, List.mem_cons] at h
    rcases h with h | h
    · cases h
      split <;> rfl
    · have := ih _ t p h
      rw [this]
      split <;> rfl

theorem sendToGo_embedFooter (cu ca : Option String) (targets : List RoomInstance)
    (options : Payload) :
    ∀ t p, Effect.send t p ∈ sendToGo cu ca targets options →
      p.embedFooter = options.embedFooter := by
  induction targets generalizing options with
  | nil => intro t p h; cases h
  | cons a rest ih =>
    intro t p h
    simp only [sendToGo, List.mem_cons] at h
    rcases h with h | h
    · cases h
      split <;> rfl
    · have := ih _ t p h
      rw [this]
      split <;> rfl

theorem mem_getAllInstancesExcept (s : RoomState) (inst j : RoomInstance) :
    j ∈ getAllInstancesExcept s inst ↔ j ∈ s.instances ∧ j.iid ≠ inst.iid := by
  simp [getAllInstancesExcept]

/-! Shape lemmas: every operation leaves the capacity configuration,
the room id and the client identity unchanged, and only ever appends to
the room-wide member list. -/

/-- The fields of the state that no operation ever writes. -/
def cfg (s : RoomState) : String × Option Nat × Option Nat × Option String × Option String :=
  (s.id, s.maxInstances, s.maxMembersPerInstance, s.clientUsername, s.clientAvatar)

theorem onMemberCreate_cfg (s : RoomState) (inst : RoomInstance) (m : RoomMember) :
    cfg (onMemberCreate s inst m).1 = cfg s := rfl

theorem createMember_cfg (s : RoomState) (inst : RoomInstance) (gm : GuildMember)
    (a : Bool) (r : Nat) : cfg (createMember s inst gm a r).2.1 = cfg s := by
  unfold createMember
  split
  · rfl
  · rfl

theorem getOrCreateMember_cfg {s : RoomState} {msg : Message} {r : Nat} {res} :
    getOrCreateMember s msg r = .ok res → cfg res.2.1 = cfg s := by
  unfold getOrCreateMember
  intro h
  split at h
  · cases h
  · split at h
    · cases h
    · split at h
      · cases h; rfl
      · cases h
        exact createMember_cfg ..

theorem createThread_cfg {s : RoomState} {ct : ChannelType} {cid tid : String}
    {gm : GuildMember} {a : Bool} {r : Nat} {res} :
    createThread s ct cid tid gm a r = .ok res → cfg res.2.1 = cfg s := by
  unfold createThread
  intro h
  split at h
  · cases h
  · split at h
    · cases h; rfl
    · cases h
      exact createMember_cfg ..

theorem synchronizeMessage_cfg {s : RoomState} {msg : Message} {r : Nat} {res} :
    synchronizeMessage s msg r = .ok res → cfg res.1 = cfg s := by
  unfold synchronizeMessage
  intro h
  split at h
  · cases h; rfl
  · split at h
    · cases h; rfl
    · split at h
      · cases h
      · next heq => cases h; exact getOrCreateMember_cfg heq
      · next heq => cases h; exact getOrCreateMember_cfg heq

theorem deleteInstance_cfg (s : RoomState) (inst : RoomInstance) :
    cfg (deleteInstance s inst).1 = cfg s := rfl

theorem stepState_cfg (s : RoomState) (op : Op) : cfg (stepState s op) = cfg s := by
  cases op with
  | createThreadOp ct cid tid gm a r =>
    simp only [stepState]
    split
    · next heq => exact createThread_cfg heq
    · rfl
  | getOrCreateMemberOp msg r =>
    simp only [stepState]
    split
    · next heq => exact getOrCreateMember_cfg heq
    · rfl
  | createMemberOp iid gm a r =>
    simp only [stepState]
    split
    · exact createMember_cfg ..
    · rfl
  | syncMessageOp msg r =>
    simp only [stepState]
    split
    · next heq => exact synchronizeMessage_cfg heq
    · rfl
  | deleteInstanceOp inst => exact deleteInstance_cfg ..

theorem run_cfg (s : RoomState) (ops : List Op) : cfg (run s ops) = cfg s := by
  induction ops generalizing s with
  | nil => rfl
  | cons op t ih =>
    simp only [run, List.foldl_cons]
    rw [← run]
    rw [ih (stepState s op), stepState_cfg s op]

theorem run_maxInstances (rt : RoomType) (id : String) (cu ca : Option String)
    (ops : List Op) :
    (run (mkRoom rt id cu ca) ops).maxInstances
      = (if rt = .oneOnOne then some 2 else none) := by
  have h := run_cfg (mkRoom rt id cu ca) ops
  simp only [cfg, Prod.mk.injEq] at h
  exact h.2.1

theorem run_maxMembersPerInstance (rt : RoomType) (id : String) (cu ca : Option String)
    (ops : List Op) :
    (run (mkRoom rt id cu ca) ops).maxMembersPerInstance
      = (if rt = .oneOnOne then some 1 else none) := by
  have h := run_cfg (mkRoom rt id cu ca) ops
  simp only [cfg, Prod.mk.injEq] at h
  exact h.2.2.1

theorem createMember_roomMembers (s : RoomState) (inst : RoomInstance) (gm : GuildMember)
    (a : Bool) (r : Nat) :
    ∃ t, (createMember s inst gm a r).2.1.roomMembers = s.roomMembers ++ t := by
  unfold createMember
  split
  · exact ⟨[], by simp⟩
  · exact ⟨[mkRoomMember s inst.iid gm a r], rfl⟩

theorem getOrCreateMember_roomMembers {s : RoomState} {msg : Message} {r : Nat} {res}
    (h : getOrCreateMember s msg r = .ok res) :
    ∃ t, res.2.1.roomMembers = s.roomMembers ++ t := by
  unfold getOrCreateMember at h
  split at h
  · cases h
  · split at h
    · cases h
    · split at h
      · cases h; exact ⟨[], by simp⟩
      · cases h; exact createMember_roomMembers ..

theorem createThread_roomMembers {s : RoomState} {ct : ChannelType} {cid tid : String}
    {gm : GuildMember} {a : Bool} {r : Nat} {res}
    (h : createThread s ct cid tid gm a r = .ok res) :
    ∃ t, res.2.1.roomMembers = s.roomMembers ++ t := by
  unfold createThread at h
  split at h
  · cases h
  · split at h
    · cases h; exact ⟨[], by simp⟩
    · cases h
      exact createMember_roomMembers ..

theorem synchronizeMessage_roomMembers {s : RoomState} {msg : Message} {r : Nat} {res}
    (h : synchronizeMessage s msg r = .ok res) :
    ∃ t, res.1.roomMembers = s.roomMembers ++ t := by
  unfold synchronizeMessage at h
  split at h
  · cases h; exact ⟨[], by simp⟩
  · split at h
    · cases h; exact ⟨[], by simp⟩
    · split at h
      · cases h
      · next heq => cases h; exact getOrCreateMember_roomMembers heq
      · next heq => cases h; exact getOrCreateMember_roomMembers heq

theorem stepState_roomMembers (s : RoomState) (op : Op) :
    ∃ t, (stepState s op).roomMembers = s.roomMembers ++ t := by
  cases op with
  | createThreadOp ct cid tid gm a r =>
    simp only [stepState]
    split
    · next heq => exact createThread_roomMembers heq
    · exact ⟨[], by simp⟩
  | getOrCreateMemberOp msg r =>
    simp only [stepState]
    split
    · next heq => exact getOrCreateMember_roomMembers heq
    · exact ⟨[], by simp⟩
  | createMemberOp iid gm a r =>
    simp only [stepState]
    split
    · exact createMember_roomMembers ..
    · exact ⟨[], by simp⟩
  | syncMessageOp msg r =>
    simp only [stepState]
    split
    · next heq => exact synchronizeMessage_roomMembers heq
    · exact ⟨[], by simp⟩
  | deleteInstanceOp inst => exact ⟨[], by simp [stepState, deleteInstance_roomMembers]⟩

theorem run_roomMembers (s : RoomState) (ops : List Op) :
    ∃ t, (run s ops).roomMembers = s.roomMembers ++ t := by
  induction ops generalizing s with
  | nil => exact ⟨[], by simp [run]⟩
  | cons op t ih =>
    simp only [run, List.foldl_cons]
    rw [← run]
    obtain ⟨t1, h1⟩ := ih (stepState s op)
    obtain ⟨t0, h0⟩ := stepState_roomMembers s op
    exact ⟨t0 ++ t1, by rw [h1, h0, List.append_assoc]⟩

/-! Lemmas about `pushMemberToInstance`. -/

theorem pushMember_map_iid (l : List RoomInstance) (iid : Nat) (m : RoomMember) :
    (pushMemberToInstance l iid m).map (fun i => i.iid) = l.map (fun i => i.iid) := by
  unfold pushMemberToInstance
  rw [List.map_map]
  apply List.map_congr_left
  intro i _
  by_cases h : i.iid = iid <;> simp [h]

theorem pushMember_length (l : List RoomInstance) (iid : Nat) (m : RoomMember) :
    (pushMemberToInstance l iid m).length = l.length := by
  simp [pushMemberToInstance]

theorem mem_pushMember {l : List RoomInstance} {iid : Nat} {m : RoomMember} {j : RoomInstance}
    (hj : j ∈ pushMemberToInstance l iid m) :
    ∃ i ∈ l, j = if i.iid = iid then { i with members := i.members ++ [m] } else i := by
  unfold pushMemberToInstance at hj
  obtain ⟨i, hi, hij⟩ := List.mem_map.mp hj
  exact ⟨i, hi, hij.symm⟩

theorem pushMember_members_le {l : List RoomInstance} {inst : RoomInstance} {m : RoomMember}
    {B : Nat} (hN : (l.map (fun i => i.iid)).Nodup) (hmem : inst ∈ l)
    (hinst : inst.members.length + 1 ≤ B)
    (hall : ∀ i ∈ l, i.members.length ≤ B) :
    ∀ j ∈ pushMemberToInstance l inst.iid m, j.members.length ≤ B := by
  intro j hj
  obtain ⟨i, hi, rfl⟩ := mem_pushMember hj
  by_cases h : i.iid = inst.iid
  · have hii : i = inst := List.inj_on_of_nodup_map hN hi hmem h
    subst hii
    rw [if_pos h]
    simp only [List.length_append, List.length_cons, List.length_nil]
    omega
  · simp only [if_neg h]
    exact hall i hi

/-! The 1-on-1 capacity invariant, together with the identity-freshness
facts that make structural `iid` equality coincide with JS reference
equality. -/

/-- Invariant of a reachable 1-on-1 room: the constructor configuration,
fresh and pairwise-distinct instance identities, at most two instances,
at most one member per instance. -/
def OneInv (s : RoomState) : Prop :=
  s.maxInstances = some 2 ∧ s.maxMembersPerInstance = some 1 ∧
  (∀ i ∈ s.instances, i.iid < s.nextIid) ∧
  (s.instances.map (fun i => i.iid)).Nodup ∧
  s.instances.length ≤ 2 ∧
  (∀ i ∈ s.instances, i.members.length ≤ 1)

theorem oneInv_mkRoom (id : String) (cu ca : Option String) :
    OneInv (mkRoom .oneOnOne id cu ca) := by
  refine ⟨rfl, rfl, ?_, ?_, ?_, ?_⟩ <;> simp [mkRoom]

theorem createMember_oneInv {s : RoomState} {inst : RoomInstance} {gm : GuildMember}
    {a : Bool} {r : Nat} (hs : OneInv s) (hmem : inst ∈ s.instances) :
    OneInv (createMember s inst gm a r).2.1 := by
  obtain ⟨h2, h1, hfresh, hnodup, hlen, hball⟩ := hs
  unfold createMember
  split
  · exact ⟨h2, h1, hfresh, hnodup, hlen, hball⟩
  · next hcap =>
    rw [h1] at hcap
    simp only [capBlocked] at hcap
    have hlen0 : inst.members.length = 0 := by
      by_contra hne
      apply hcap
      have : 1 ≤ inst.members.length := by omega
      simp [this]
    simp only [onMemberCreate]
    refine ⟨h2, h1, ?_, ?_, ?_, ?_⟩
    · intro j hj
      obtain ⟨i, hi, rfl⟩ := mem_pushMember hj
      have := hfresh i hi
      split <;> simpa
    · rw [pushMember_map_iid]
      exact hnodup
    · rw [pushMember_length]
      exact hlen
    · exact pushMember_members_le hnodup hmem (by omega) hball

theorem getOrCreateMember_oneInv {s : RoomState} {msg : Message} {r : Nat} {res}
    (hs : OneInv s) (h : getOrCreateMember s msg r = .ok res) : OneInv res.2.1 := by
  unfold getOrCreateMember at h
  split at h
  · cases h
  · next inst hinst =>
    split at h
    · cases h
    · split at h
      · cases h
        exact hs
      · cases h
        exact createMember_oneInv hs (List.mem_of_find?_eq_some hinst)

theorem createThread_oneInv {s : RoomState} {ct : ChannelType} {cid tid : String}
    {gm : GuildMember} {a : Bool} {r : Nat} {res}
    (hs : OneInv s) (h : createThread s ct cid tid gm a r = .ok res) :
    OneInv res.2.1 := by
  obtain ⟨h2, h1, hfresh, hnodup, hlen, hball⟩ := hs
  unfold createThread at h
  split at h
  · cases h
  · split at h
    · cases h
      exact ⟨h2, h1, hfresh, hnodup, hlen, hball⟩
    · next hcap =>
      cases h
      rw [h2] at hcap
      simp only [capBlocked] at hcap
      have hlt : s.instances.length < 2 := by
        by_contra hge
        apply hcap
        have : 2 ≤ s.instances.length := by omega
        simp [this]
      set inst : RoomInstance :=
        { iid := s.nextIid, threadId := tid, members := [], hasCollector := true } with hinstdef
      have hs1 : OneInv (createInstance s tid).2 := by
        refine ⟨h2, h1, ?_, ?_, ?_, ?_⟩
        · intro i hi
          simp only [createInstance, List.mem_append, List.mem_singleton] at hi
          rcases hi with hi | hi
          · have := hfresh i hi
            simp only [createInstance]
            omega
          · subst hi
            simp [createInstance]
        · simp only [createInstance, List.map_append, List.map_cons, List.map_nil]
          rw [List.nodup_append]
          refine ⟨hnodup, List.nodup_singleton _, ?_⟩
          intro x hx hx2
          simp only [List.mem_singleton] at hx2
          obtain ⟨i, hi, rfl⟩ := List.mem_map.mp hx
          have := hfresh i hi
          omega
        · simp only [createInstance, List.length_append, List.length_cons, List.length_nil]
          omega
        · intro i hi
          simp only [createInstance, List.mem_append, List.mem_singleton] at hi
          rcases hi with hi | hi
          · exact hball i hi
          · subst hi
            simp
      have hmem1 : (createInstance s tid).1 ∈ (createInstance s tid).2.instances := by
        simp [createInstance]
      exact createMember_oneInv hs1 hmem1

theorem synchronizeMessage_oneInv {s : RoomState} {msg : Message} {r : Nat} {res}
    (hs : OneInv s) (h : synchronizeMessage s msg r = .ok res) : OneInv res.1 := by
  unfold synchronizeMessage at h
  split at h
  · cases h
    exact hs
  · split at h
    · cases h
      exact hs
    · split at h
      · cases h
      · next heq =>
        cases h
        exact getOrCreateMember_oneInv hs heq
      · next heq =>
        cases h
        exact getOrCreateMember_oneInv hs heq

theorem deleteInstance_oneInv {s : RoomState} {inst : RoomInstance} (hs : OneInv s) :
    OneInv (deleteInstance s inst).1 := by
  obtain ⟨h2, h1, hfresh, hnodup, hlen, hball⟩ := hs
  have hsub : List.Sublist (deleteInstance s inst).1.instances s.instances :=
    spliceRemoveOne_sublist ..
  refine ⟨h2, h1, ?_, ?_, ?_, ?_⟩
  · intro i hi
    exact hfresh i (hsub.subset hi)
  · exact hnodup.sublist (hsub.map (fun i => i.iid))
  · exact le_trans hsub.length_le hlen
  · intro i hi
    exact hball i (hsub.subset hi)

theorem stepState_oneInv {s : RoomState} (op : Op) (hs : OneInv s) :
    OneInv (stepState s op) := by
  cases op with
  | createThreadOp ct cid tid gm a r =>
    simp only [stepState]
    split
    · next heq => exact createThread_oneInv hs heq
    · exact hs
  | getOrCreateMemberOp msg r =>
    simp only [stepState]
    split
    · next heq => exact getOrCreateMember_oneInv hs heq
    · exact hs
  | createMemberOp iid gm a r =>
    simp only [stepState]
    split
    · next inst hinst => exact createMember_oneInv hs (List.mem_of_find?_eq_some hinst)
    · exact hs
  | syncMessageOp msg r =>
    simp only [stepState]
    split
    · next heq => exact synchronizeMessage_oneInv hs heq
    · exact hs
  | deleteInstanceOp inst =>
    exact deleteInstance_oneInv hs

theorem run_oneInv {s : RoomState} (ops : List Op) (hs : OneInv s) :
    OneInv (run s ops) := by
  induction ops generalizing s with
  | nil => exact hs
  | cons op t ih =>
    simp only [run, List.foldl_cons]
    rw [← run]
    exact ih (stepState_oneInv op hs)

/-! The member-index invariant: room-wide member indices enumerate
positions, and anonymous display names are determined by the index. -/

/-- Invariant backing the anonymous-counter claims: the room-wide member
list's indices are exactly `0, 1, …, n-1` in order, and every anonymous
member's display name is `Anonymous {index + 1}`. -/
def IdxInv (s : RoomState) : Prop :=
  (s.roomMembers.map (fun m => m.index) = List.range s.roomMembers.length) ∧
  (∀ m ∈ s.roomMembers, m.anonymous = true →
    m.displayName = "Anonymous " ++ toString (m.index + 1))

theorem idxInv_mkRoom (rt : RoomType) (id : String) (cu ca : Option String) :
    IdxInv (mkRoom rt id cu ca) := by
  constructor <;> simp [mkRoom]

theorem createMember_idxInv {s : RoomState} {inst : RoomInstance} {gm : GuildMember}
    {a : Bool} {r : Nat} (hs : IdxInv s) : IdxInv (createMember s inst gm a r).2.1 := by
  obtain ⟨hidx, hanon⟩ := hs
  unfold createMember
  split
  · exact ⟨hidx, hanon⟩
  · simp only [onMemberCreate]
    constructor
    · simp only [List.map_append, List.length_append, List.map_cons, List.map_nil,
        List.length_cons, List.length_nil]
      rw [hidx]
      rw [List.range_succ]
      rfl
    · intro m hm hma
      rcases List.mem_append.mp hm with hm | hm
      · exact hanon m hm hma
      · rw [List.mem_singleton] at hm
        subst hm
        simp only [mkRoomMember] at hma ⊢
        rw [if_pos hma]

theorem getOrCreateMember_idxInv {s : RoomState} {msg : Message} {r : Nat} {res}
    (hs : IdxInv s) (h : getOrCreateMember s msg r = .ok res) : IdxInv res.2.1 := by
  unfold getOrCreateMember at h
  split at h
  · cases h
  · split at h
    · cases h
    · split at h
      · cases h
        exact hs
      · cases h
        exact createMember_idxInv hs

theorem createInstance_roomMembers (s : RoomState) (tid : String) :
    (createInstance s tid).2.roomMembers = s.roomMembers := rfl

theorem createThread_idxInv {s : RoomState} {ct : ChannelType} {cid tid : String}
    {gm : GuildMember} {a : Bool} {r : Nat} {res}
    (hs : IdxInv s) (h : createThread s ct cid tid gm a r = .ok res) : IdxInv res.2.1 := by
  unfold createThread at h
  split at h
  · cases h
  · split at h
    · cases h
      exact hs
    · cases h
      have hs1 : IdxInv (createInstance s tid).2 := by
        obtain ⟨hidx, hanon⟩ := hs
        exact ⟨by rw [createInstance_roomMembers]; exact hidx,
               by rw [createInstance_roomMembers]; exact hanon⟩
      exact createMember_idxInv hs1

theorem synchronizeMessage_idxInv {s : RoomState} {msg : Message} {r : Nat} {res}
    (hs : IdxInv s) (h : synchronizeMessage s msg r = .ok res) : IdxInv res.1 := by
  unfold synchronizeMessage at h
  split at h
  · cases h
    exact hs
  · split at h
    · cases h
      exact hs
    · split at h
      · cases h
      · next heq =>
        cases h
        exact getOrCreateMember_idxInv hs heq
      · next heq =>
        cases h
        exact getOrCreateMember_idxInv hs heq

theorem stepState_idxInv {s : RoomState} (op : Op) (hs : IdxInv s) :
    IdxInv (stepState s op) := by
  cases op with
  | createThreadOp ct cid tid gm a r =>
    simp only [stepState]
    split
    · next heq => exact createThread_idxInv hs heq
    · exact hs
  | getOrCreateMemberOp msg r =>
    simp only [stepState]
    split
    · next heq => exact getOrCreateMember_idxInv hs heq
    · exact hs
  | createMemberOp iid gm a r =>
    simp only [stepState]
    split
    · exact createMember_idxInv hs
    · exact hs
  | syncMessageOp msg r =>
    simp only [stepState]
    split
    · next heq => exact synchronizeMessage_idxInv hs heq
    · exact hs
  | deleteInstanceOp inst =>
    obtain ⟨hidx, hanon⟩ := hs
    exact ⟨by rw [stepState, deleteInstance_roomMembers]; exact hidx,
           by rw [stepState, deleteInstance_roomMembers]; exact hanon⟩

theorem run_idxInv {s : RoomState} (ops : List Op) (hs : IdxInv s) :
    IdxInv (run s ops) := by
  induction ops generalizing s with
  | nil => exact hs
  | cons op t ih =>
    simp only [run, List.foldl_cons]
    rw [← run]
    exact ih (stepState_idxInv op hs)

end V1

/-! Concrete fixtures used by witnesses and counterexamples. -/

def gmA : GuildMember := { id := "ua", displayName := "Alice", avatarURL := "https://a.png" }

def gmB : GuildMember := { id := "ub", displayName := "Bob", avatarURL := "https://b.png" }

def gmC : GuildMember := { id := "uc", displayName := "Cara", avatarURL := "https://c.png" }

def gmD : GuildMember := { id := "ud", displayName := "Dan", avatarURL := "https://d.png" }

/-- Alice's member record in the first instance of the two-instance
fixture rooms. -/
def mA : RoomMember :=
  { memberId := "ua", instanceIid := 0, anonymous := false, displayName := "Alice",
    avatar := "https://a.png", index := 0 }

/-- Bob's member record in the second instance of the two-instance
fixture rooms. -/
def mB : RoomMember :=
  { memberId := "ub", instanceIid := 1, anonymous := false, displayName := "Bob",
    avatar := "https://b.png", index := 1 }

/-- The first instance of the two-instance fixture rooms. -/
def instA : RoomInstance := { iid := 0, threadId := "t1", members := [mA], hasCollector := true }

/-- The second instance of the two-instance fixture rooms. -/
def instB : RoomInstance := { iid := 1, threadId := "t2", members := [mB], hasCollector := true }

/-- A Party room reached by bridging two channels. -/
def sParty2 : RoomState :=
  V1.run (V1.mkRoom .party "prty" (some "bot") (some "https://bot.png"))
    [.createThreadOp .guildText "c1" "t1" gmA false 0,
     .createThreadOp .guildText "c2" "t2" gmB false 0]

/-- A message from Dan, a non-member, posted in thread t1. -/
def msgD : Message :=
  { channelId := "t1", member := some gmD, authorId := "ud", authorUsername := "Dan",
    content := "hi", attachments := [] }

/-- Operations driving a Party room to three instances with a fourth
member auto-joined into the first instance. -/
def party3Ops : List V1.Op :=
  [.createThreadOp .guildText "c1" "t1" gmA false 0,
   .createThreadOp .guildText "c2" "t2" gmB false 0,
   .createThreadOp .guildText "c3" "t3" gmC false 0,
   .getOrCreateMemberOp msgD 0]

/-- Dan's member record after auto-joining the three-instance Party
fixture. -/
def mD3 : RoomMember :=
  { memberId := "ud", instanceIid := 0, anonymous := false, displayName := "Dan",
    avatar := "https://d.png", index := 3 }

/-- A 1-on-1 room reached by bridging two channels (at its instance
cap). -/
def sOne2 : RoomState :=
  V1.run (V1.mkRoom .oneOnOne "oo11" (some "bot") (some "https://bot.png"))
    [.createThreadOp .guildText "c1" "t1" gmA false 0,
     .createThreadOp .guildText "c2" "t2" gmB false 0]

/-- An instance absent from every fixture room (fresh identity 5). -/
def instX : RoomInstance := { iid := 5, threadId := "tX", members := [], hasCollector := true }

/-- A message from Alice (already a member) in thread t1. -/
def msgA : Message :=
  { channelId := "t1", member := some gmA, authorId := "ua", authorUsername := "Alice",
    content := "hello", attachments := [] }

/-- A message with a sender and a non-empty attachment but empty
content. -/
def msgAttach : Message :=
  { channelId := "t1", member := some gmA, authorId := "ua", authorUsername := "Alice",
    content := "", attachments := ["https://x/a.png"] }

/-! Claim theorems. -/

/-- C10: `deleteInstance` is not a no-op on an instance absent from the
instance list — `indexOf` yields `-1` and `splice(-1, 1)` removes the
final element; consequently, deleting the same (present,
identity-unique) instance twice removes an unrelated instance: the
second call drops the last remaining element. -/
theorem c10_deleteInstance_absent_removes_last :
    (∀ (s : RoomState) (inst : RoomInstance),
        inst.iid ∉ s.instances.map (fun i => i.iid) →
        (V1.deleteInstance s inst).1.instances = s.instances.dropLast) ∧
    (∀ (s : RoomState) (inst : RoomInstance),
        (s.instances.map (fun i => i.iid)).Nodup → inst ∈ s.instances →
        inst ∉ (V1.deleteInstance s inst).1.instances ∧
        (V1.deleteInstance (V1.deleteInstance s inst).1 inst).1.instances
          = (V1.deleteInstance s inst).1.instances.dropLast) := by
  constructor
  · intro s inst h
    exact V1.deleteInstance_absent h
  · intro s inst hN hmem
    have hfilter := V1.deleteInstance_present hN hmem
    constructor
    · rw [hfilter]
      intro hc
      exact (mem_filter_ne_iid.mp hc).2 rfl
    · apply V1.deleteInstance_absent
      rw [hfilter]
      intro hc
      obtain ⟨j, hj, hij⟩ := List.mem_map.mp hc
      exact (mem_filter_ne_iid.mp hj).2 hij

/-- Witness for C10: in the two-instance Party fixture, deleting the
foreign instance `instX` removes `instB` (the last element), and
deleting `instA` twice first removes `instA`, then empties the list. -/
theorem c10_witness :
    (V1.deleteInstance sParty2 instX).1.instances = [instA] ∧
    instA ∉ (V1.deleteInstance sParty2 instA).1.instances ∧
    (V1.deleteInstance (V1.deleteInstance sParty2 instA).1 instA).1.instances = [] := by
  have h1 := c10_deleteInstance_absent_removes_last.1 sParty2 instX (by decide)
  have h2 := c10_deleteInstance_absent_removes_last.2 sParty2 instA (by decide) (by decide)
  refine ⟨?_, h2.1, ?_⟩
  · rw [h1]
    decide
  · rw [h2.2]
    decide

/-- C4 counterexample: a transient send failure — not a channel-gone
error — still removes the target instance, because the source's
`.catch(() => deleteInstance(instance))` never inspects the rejection
reason; the claim requires the instance to survive a transient
failure. -/
theorem c4_counterexample_transient_removes :
    sParty2.instances = [instA, instB] ∧
    (V1.catchHandler sParty2 instA .transient).1.instances = [instB] ∧
    instA ∉ (V1.catchHandler sParty2 instA .transient).1.instances := by
  refine ⟨by decide, by decide, by decide⟩

/-- C4 amended: every send failure, channel-gone or transient, runs the
catch handler and removes the target instance (stopping its collector);
only a fulfilled send leaves the room untouched.  Failure kinds are not
distinguished and nothing is logged. -/
theorem c4_any_failure_removes (s : RoomState) (inst : RoomInstance) (res : SendResult)
    (hres : res ≠ .ok) :
    V1.webhookSendSettle s inst res = V1.deleteInstance s inst ∧
    V1.webhookSendSettle s inst .ok = (s, []) ∧
    ((s.instances.map (fun i => i.iid)).Nodup → inst ∈ s.instances →
      inst ∉ (V1.webhookSendSettle s inst res).1.instances) := by
  have hset : V1.webhookSendSettle s inst res = V1.deleteInstance s inst := by
    cases res with
    | ok => exact absurd rfl hres
    | channelGone => rfl
    | transient => rfl
  refine ⟨hset, rfl, ?_⟩
  intro hN hmem
  rw [hset, V1.deleteInstance_present hN hmem]
  intro hc
  exact (mem_filter_ne_iid.mp hc).2 rfl

/-- Witness for C4 (amended) at the two-instance Party fixture with a
transient failure on `instA`. -/
theorem c4_witness :
    instA ∉ (V1.webhookSendSettle sParty2 instA .transient).1.instances :=
  (c4_any_failure_removes sParty2 instA .transient (by decide)).2.2 (by decide) (by decide)

/-- C3 counterexample: after a channel-gone failure removes `instA`
(and stops its collector), Alice — `instA`'s only participant — still
appears in the room-wide `MemberManager.members` list; the claim
requires her to be gone from it. -/
theorem c3_counterexample_members_remain :
    instA ∈ sParty2.instances ∧ mA ∈ instA.members ∧ mA.instanceIid = instA.iid ∧
    instA ∉ (V1.webhookSendSettle sParty2 instA .channelGone).1.instances ∧
    (V1.webhookSendSettle sParty2 instA .channelGone).2 = [Effect.stopCollector instA.iid] ∧
    mA ∈ (V1.webhookSendSettle sParty2 instA .channelGone).1.roomMembers := by
  refine ⟨by decide, by decide, by decide, by decide, by decide, by decide⟩

/-- C3 amended: a channel-gone send failure removes the target instance
from the instance list and stops its collector, but its participants
remain in the room-wide membership list — `deleteInstance` never
touches `MemberManager.members`. -/
theorem c3_channelGone_cleanup (s : RoomState) (inst : RoomInstance)
    (hN : (s.instances.map (fun i => i.iid)).Nodup) (hmem : inst ∈ s.instances) :
    V1.webhookSendSettle s inst .channelGone = V1.deleteInstance s inst ∧
    (V1.deleteInstance s inst).1.instances
      = s.instances.filter (fun i => i.iid ≠ inst.iid) ∧
    inst ∉ (V1.deleteInstance s inst).1.instances ∧
    (V1.deleteInstance s inst).2
      = (if inst.hasCollector then [Effect.stopCollector inst.iid] else []) ∧
    (V1.deleteInstance s inst).1.roomMembers = s.roomMembers := by
  refine ⟨rfl, V1.deleteInstance_present hN hmem, ?_, rfl, rfl⟩
  rw [V1.deleteInstance_present hN hmem]
  intro hc
  exact (mem_filter_ne_iid.mp hc).2 rfl

/-- Witness for C3 (amended) at the two-instance Party fixture,
removing `instB`. -/
theorem c3_witness :
    instB ∉ (V1.deleteInstance sParty2 instB).1.instances ∧
    (V1.deleteInstance sParty2 instB).1.roomMembers = sParty2.roomMembers :=
  ⟨(c3_channelGone_cleanup sParty2 instB (by decide) (by decide)).2.2.1,
   (c3_channelGone_cleanup sParty2 instB (by decide) (by decide)).2.2.2.2⟩

/-- C6: on every reachable room whose `maxInstances` is defined and
whose instance count is at or above it, `createThread` (on a guild text
channel) returns `false` with the state unchanged and no effect — no
webhook fetched, no thread started, no instance created, no member
added. -/
theorem c6_createThread_at_cap (rt : RoomType) (id : String) (cu ca : Option String)
    (ops : List V1.Op) (cid tid : String) (gm : GuildMember) (a : Bool) (r M : Nat)
    (hM : (V1.run (V1.mkRoom rt id cu ca) ops).maxInstances = some M)
    (hlen : M ≤ (V1.run (V1.mkRoom rt id cu ca) ops).instances.length) :
    V1.createThread (V1.run (V1.mkRoom rt id cu ca) ops) .guildText cid tid gm a r
      = .ok (false, V1.run (V1.mkRoom rt id cu ca) ops, []) := by
  set s := V1.run (V1.mkRoom rt id cu ca) ops with hs
  have hmax := V1.run_maxInstances rt id cu ca ops
  rw [← hs] at hmax
  rw [hM] at hmax
  have hM2 : M = 2 := by
    by_cases hrt : rt = .oneOnOne
    · rw [if_pos hrt] at hmax
      exact Option.some.inj hmax
    · rw [if_neg hrt] at hmax
      cases hmax
  subst hM2
  unfold V1.createThread
  have hct : ¬ (ChannelType.guildText ≠ ChannelType.guildText) := by simp
  rw [if_neg hct]
  have hcap : capBlocked s.maxInstances s.instances.length = true := by
    rw [hM]
    simp only [capBlocked]
    simp only [Bool.and_eq_true, decide_eq_true_eq]
    constructor
    · rfl
    · omega
  rw [if_pos hcap]

/-- Witness for C6: the 1-on-1 fixture at its cap of two instances
refuses a third bridge with no side effect. -/
theorem c6_witness :
    V1.createThread sOne2 .guildText "c9" "t9" gmC false 0 = .ok (false, sOne2, []) :=
  c6_createThread_at_cap .oneOnOne "oo11" (some "bot") (some "https://bot.png")
    [.createThreadOp .guildText "c1" "t1" gmA false 0,
     .createThreadOp .guildText "c2" "t2" gmB false 0]
    "c9" "t9" gmC false 0 2 (by decide) (by decide)

/-- C7 counterexample: a message carrying a sender and a non-empty
attachment list but empty text content is dropped by
`synchronizeMessage` — the code tests only `message.content`, never
attachments — whereas the claim requires such a message to be relayed
with the attachment URLs appended. -/
theorem c7_counterexample_attachment_message_dropped :
    msgAttach.member.isSome = true ∧ msgAttach.attachments ≠ [] ∧
    2 ≤ sParty2.instances.length ∧
    V1.synchronizeMessage sParty2 msgAttach 0 = .ok (sParty2, []) := by
  refine ⟨by decide, by decide, by decide, rfl⟩

/-- C7 amended: `synchronizeMessage` drops a message exactly when it has
no originating member or its content is empty (attachments are never
consulted); when the sender resolves, the outbound content equals the
message content verbatim — no attachment URLs are appended and no
truncation occurs. -/
theorem c7_sync_drop_condition_and_verbatim_content :
    (∀ (s : RoomState) (msg : Message) (r : Nat),
        msg.member = none ∨ msg.content = "" →
        V1.synchronizeMessage s msg r = .ok (s, [])) ∧
    (∀ (s : RoomState) (msg : Message) (r : Nat) (gm : GuildMember) (src : RoomInstance)
        (rm : RoomMember) (s1 : RoomState) (effs : List Effect),
        msg.member = some gm → msg.content ≠ "" →
        V1.getInstance s msg.channelId = some src →
        V1.getOrCreateMember s msg r = .ok (some rm, s1, effs) →
        ∃ msgSends,
          V1.synchronizeMessage s msg r = .ok (s1, effs ++ msgSends) ∧
          ∀ t p, Effect.send t p ∈ msgSends → p.content = some msg.content) := by
  constructor
  · intro s msg r h
    unfold V1.synchronizeMessage
    rw [if_pos h]
  · intro s msg r gm src rm s1 effs hgm hc hsrc hres
    have hcond : ¬ (msg.member = none ∨ msg.content = "") := by
      rintro (h | h)
      · rw [hgm] at h
        cases h
      · exact hc h
    unfold V1.synchronizeMessage
    rw [if_neg hcond, hsrc, hres]
    refine ⟨V1.sendTo s1 (V1.getAllInstancesExcept s1 src)
      { username := some rm.displayName, avatarURL := some rm.avatar,
        content := some msg.content, threadId := none, embedFooter := none }, rfl, ?_⟩
    intro t p hp
    exact V1.sendToGo_content s1.clientUsername s1.clientAvatar _ _ t p hp

/-- Witness for C7 (amended): the member-less variant of Alice's message
is dropped, and her real message is relayed verbatim. -/
theorem c7_witness :
    V1.synchronizeMessage sParty2 { msgA with member := none } 0 = .ok (sParty2, []) ∧
    ∃ msgSends, V1.synchronizeMessage sParty2 msgA 0 = .ok (sParty2, [] ++ msgSends) ∧
      ∀ t p, Effect.send t p ∈ msgSends → p.content = some msgA.content :=
  ⟨c7_sync_drop_condition_and_verbatim_content.1 sParty2 _ 0 (Or.inl rfl),
   c7_sync_drop_condition_and_verbatim_content.2 sParty2 msgA 0 gmA instA mA sParty2 []
     (by decide) (by decide) rfl rfl⟩

/-- C2: `getAllInstancesExcept i` returns exactly the instances
different from `i`, and a qualifying message whose sender resolves is
fanned out to precisely the instances other than the source instance
(the one matching the message's channel id) — never to the source
itself. -/
theorem c2_fanout_excludes_source (s : RoomState) (msg : Message) (r : Nat)
    (gm : GuildMember) (src : RoomInstance) (rm : RoomMember) (s1 : RoomState)
    (effs : List Effect)
    (hgm : msg.member = some gm) (hc : msg.content ≠ "")
    (hsrc : V1.getInstance s msg.channelId = some src)
    (hres : V1.getOrCreateMember s msg r = .ok (some rm, s1, effs)) :
    (∀ j, j ∈ V1.getAllInstancesExcept s1 src ↔ j ∈ s1.instances ∧ j.iid ≠ src.iid) ∧
    ∃ msgSends,
      V1.synchronizeMessage s msg r = .ok (s1, effs ++ msgSends) ∧
      sendTargets msgSends
        = (s1.instances.filter (fun i => i.iid ≠ src.iid)).map (fun i => i.iid) ∧
      src.iid ∉ sendTargets msgSends ∧
      (∀ j ∈ s1.instances, j.iid ≠ src.iid → j.iid ∈ sendTargets msgSends) := by
  refine ⟨fun j => V1.mem_getAllInstancesExcept s1 src j, ?_⟩
  have hcond : ¬ (msg.member = none ∨ msg.content = "") := by
    rintro (h | h)
    · rw [hgm] at h
      cases h
    · exact hc h
  unfold V1.synchronizeMessage
  rw [if_neg hcond, hsrc, hres]
  have htargets : sendTargets (V1.sendTo s1 (V1.getAllInstancesExcept s1 src)
      { username := some rm.displayName, avatarURL := some rm.avatar,
        content := some msg.content, threadId := none, embedFooter := none })
      = (s1.instances.filter (fun i => i.iid ≠ src.iid)).map (fun i => i.iid) :=
    V1.sendTargets_sendToGo ..
  refine ⟨_, rfl, htargets, ?_, ?_⟩
  · rw [htargets]
    intro hcx
    obtain ⟨j, hj, hij⟩ := List.mem_map.mp hcx
    exact (mem_filter_ne_iid.mp hj).2 hij
  · intro j hj hne
    rw [htargets]
    exact List.mem_map_of_mem _ (mem_filter_ne_iid.mpr ⟨hj, hne⟩)

/-- Witness for C2: Alice's message in the two-instance Party fixture is
sent exactly to instance 1, not to her own instance 0. -/
theorem c2_witness :
    ∃ msgSends, V1.synchronizeMessage sParty2 msgA 0 = .ok (sParty2, [] ++ msgSends) ∧
      sendTargets msgSends = [instB.iid] ∧ instA.iid ∉ sendTargets msgSends := by
  obtain ⟨h1, ms, h2, h3, h4, h5⟩ :=
    c2_fanout_excludes_source sParty2 msgA 0 gmA instA mA sParty2 []
      (by decide) (by decide) rfl rfl
  refine ⟨ms, h2, ?_, h4⟩
  rw [h3]
  decide

/-- C5: every anonymous participant's display name is
`Anonymous {n}` with `n = members.length + 1` at creation; the
room-wide member count never decreases under any operation (members are
never removed from `MemberManager.members`); on every reachable room
the member indices enumerate `0..n-1` (so each anonymous number,
`index + 1`, is assigned once and never reused); and in a room holding
exactly one previously created member the next anonymous member is
named `Anonymous 2`. -/
theorem c5_anonymous_counter :
    (∀ (s : RoomState) (inst : RoomInstance) (gm : GuildMember) (r : Nat)
        (m : RoomMember) (s1 : RoomState) (effs : List Effect),
        V1.createMember s inst gm true r = (some m, s1, effs) →
        m.displayName = "Anonymous " ++ toString (s.roomMembers.length + 1) ∧
        m.index = s.roomMembers.length ∧
        s1.roomMembers = s.roomMembers ++ [m]) ∧
    (∀ (s : RoomState) (op : V1.Op),
        s.roomMembers.length ≤ (V1.stepState s op).roomMembers.length) ∧
    (∀ (rt : RoomType) (id : String) (cu ca : Option String) (ops : List V1.Op),
        ((V1.run (V1.mkRoom rt id cu ca) ops).roomMembers.map (fun m => m.index))
          = List.range (V1.run (V1.mkRoom rt id cu ca) ops).roomMembers.length ∧
        (∀ m ∈ (V1.run (V1.mkRoom rt id cu ca) ops).roomMembers, m.anonymous = true →
          m.displayName = "Anonymous " ++ toString (m.index + 1))) ∧
    (∀ (s : RoomState) (inst : RoomInstance) (gm : GuildMember) (r : Nat)
        (m : RoomMember) (s1 : RoomState) (effs : List Effect),
        s.roomMembers.length = 1 →
        V1.createMember s inst gm true r = (some m, s1, effs) →
        m.displayName = "Anonymous 2") := by
  have hpart1 : ∀ (s : RoomState) (inst : RoomInstance) (gm : GuildMember) (r : Nat)
      (m : RoomMember) (s1 : RoomState) (effs : List Effect),
      V1.createMember s inst gm true r = (some m, s1, effs) →
      m.displayName = "Anonymous " ++ toString (s.roomMembers.length + 1) ∧
      m.index = s.roomMembers.length ∧
      s1.roomMembers = s.roomMembers ++ [m] := by
    intro s inst gm r m s1 effs h
    unfold V1.createMember at h
    split at h
    · simp at h
    · simp only [V1.onMemberCreate] at h
      simp only [Prod.mk.injEq, Option.some.injEq] at h
      obtain ⟨hm, hst, hef⟩ := h
      subst hm
      refine ⟨by simp [V1.mkRoomMember], by simp [V1.mkRoomMember], ?_⟩
      rw [← hst]
  refine ⟨hpart1, ?_, ?_, ?_⟩
  · intro s op
    obtain ⟨t, ht⟩ := V1.stepState_roomMembers s op
    rw [ht]
    simp
  · intro rt id cu ca ops
    exact V1.run_idxInv ops (V1.idxInv_mkRoom rt id cu ca)
  · intro s inst gm r m s1 effs hone h
    have := (hpart1 s inst gm r m s1 effs h).1
    rw [hone] at this
    rw [this]
    decide

/-- Witness for C5: a room holding one member names the next anonymous
joiner `Anonymous 2`. -/
theorem c5_witness :
    sParty2.roomMembers.length = 2 ∧
    ({ memberId := "uc", instanceIid := 0, anonymous := true,
       displayName := "Anonymous 3", avatar := getAnonymousAvatarURL 0,
       index := 2 } : RoomMember).displayName
      = "Anonymous " ++ toString (sParty2.roomMembers.length + 1) := by
  refine ⟨by decide, ?_⟩
  exact (c5_anonymous_counter.1 sParty2 instA gmC 0
    { memberId := "uc", instanceIid := 0, anonymous := true,
      displayName := "Anonymous 3", avatar := getAnonymousAvatarURL 0, index := 2 }
    (V1.createMember sParty2 instA gmC true 0).2.1
    (V1.createMember sParty2 instA gmC true 0).2.2 (by decide)).1

/-- C1: on a 1-on-1 room, after any sequence of operations the instance
list never exceeds two entries and no instance's member list exceeds
one entry; a Party room has no such caps — it reaches three instances
with a two-member instance. -/
theorem c1_oneOnOne_caps :
    (∀ (id : String) (cu ca : Option String) (ops : List V1.Op),
        (V1.run (V1.mkRoom .oneOnOne id cu ca) ops).instances.length ≤ 2 ∧
        (∀ inst ∈ (V1.run (V1.mkRoom .oneOnOne id cu ca) ops).instances,
          inst.members.length ≤ 1)) ∧
    (∃ ops : List V1.Op,
        3 ≤ (V1.run (V1.mkRoom .party "prty" (some "bot") (some "https://bot.png"))
              ops).instances.length ∧
        ∃ inst ∈ (V1.run (V1.mkRoom .party "prty" (some "bot") (some "https://bot.png"))
              ops).instances,
          2 ≤ inst.members.length) := by
  constructor
  · intro id cu ca ops
    have h := V1.run_oneInv ops (V1.oneInv_mkRoom id cu ca)
    exact ⟨h.2.2.2.2.1, h.2.2.2.2.2⟩
  · refine ⟨party3Ops, by decide, ?_⟩
    refine ⟨{ iid := 0, threadId := "t1", members := [mA, mD3], hasCollector := true },
      by decide, by decide⟩

/-- Witness for C1: the 1-on-1 fixture at two instances satisfies both
caps. -/
theorem c1_witness :
    (V1.run (V1.mkRoom .oneOnOne "oo11" (some "bot") (some "https://bot.png"))
      [.createThreadOp .guildText "c1" "t1" gmA false 0,
       .createThreadOp .guildText "c2" "t2" gmB false 0]).instances.length ≤ 2 ∧
    instA.members.length ≤ 1 := by
  have h := c1_oneOnOne_caps.1 "oo11" (some "bot") (some "https://bot.png")
    [.createThreadOp .guildText "c1" "t1" gmA false 0,
     .createThreadOp .guildText "c2" "t2" gmB false 0]
  exact ⟨h.1, h.2 instA (by decide)⟩

/-- C8: in the spec-modelled interactive join flow, a non-member posting
in a full instance is offered the 30-second join prompt (under every
outcome the prompt effect is emitted — the sender is not silently
dropped), and a timeout creates no participant and leaves the room
state — in particular every membership list — unchanged, with the
prompt self-deleting. -/
theorem c8_full_instance_join_flow (s : RoomState) (msg : Message)
    (inst : RoomInstance) (gm : GuildMember) (r : Nat)
    (hi : V1.getInstance s msg.channelId = some inst)
    (hgm : msg.member = some gm)
    (hnm : inst.members.find? (fun m => m.memberId = msg.authorId) = none)
    (hfull : V1.canAdmit s inst = false) :
    (V1.resolveOrJoinParticipant s msg .timedOut r
       = .ok (none, s,
           [.promptJoin inst.iid msg.authorId 30000, .deleteAfterDelay 5000])) ∧
    (∀ outcome : V1.JoinOutcome, ∃ res,
       V1.resolveOrJoinParticipant s msg outcome r = .ok res ∧
       Effect.promptJoin inst.iid msg.authorId 30000 ∈ res.2.2) := by
  have hresolve : ∀ outcome : V1.JoinOutcome,
      V1.resolveOrJoinParticipant s msg outcome r
        = .ok (V1.requestJoin s inst msg gm outcome r) := by
    intro outcome
    simp only [V1.resolveOrJoinParticipant, hi, hgm, hnm, hfull]
    simp
  constructor
  · rw [hresolve .timedOut]
    rfl
  · intro outcome
    refine ⟨V1.requestJoin s inst msg gm outcome r, hresolve outcome, ?_⟩
    cases outcome with
    | timedOut => simp [V1.requestJoin]
    | chosen c =>
      unfold V1.requestJoin
      generalize V1.createMember s inst gm (decide (c = V1.JoinChoice.joinAnonymous)) r = cm
      obtain ⟨mq, s1, effs⟩ := cm
      simp

/-- Witness for C8: Dan posting in the full first instance of the
1-on-1 fixture receives the prompt; the timeout changes nothing. -/
theorem c8_witness :
    V1.resolveOrJoinParticipant sOne2 msgD .timedOut 0
      = .ok (none, sOne2,
          [.promptJoin instA.iid msgD.authorId 30000, .deleteAfterDelay 5000]) :=
  (c8_full_instance_join_flow sOne2 msgD instA gmD 0 (by decide) (by decide)
    (by decide) (by decide)).1

/-- An anonymous member of the V3 fixture room, living in its first
instance. -/
def v3mAnon : V3.V3Member :=
  { memberId := "ua", anonymous := true, displayName := "Anonymous 1", index := 0,
    avatar := "https://anon.png" }

/-- Bob's member record in the second instance of the V3 fixture
room. -/
def v3mBob : V3.V3Member :=
  { memberId := "ub", anonymous := false, displayName := "Bob", index := 1,
    avatar := "https://b.png" }

/-- First instance of the V3 fixture room. -/
def v3instA : V3.V3Instance :=
  { iid := 0, threadId := "t1", members := [v3mAnon], hasCollector := true }

/-- Second instance of the V3 fixture room. -/
def v3instB : V3.V3Instance :=
  { iid := 1, threadId := "t2", members := [v3mBob], hasCollector := true }

/-- A two-instance V3 room with an anonymous member in the first
instance. -/
def sV3 : V3.V3State :=
  { id := "v3rm", maxInstances := none, maxMembersPerInstance := none,
    instances := [v3instA, v3instB], memberCount := 2, nextIid := 2,
    clientUsername := some "bot", clientAvatar := some "https://bot.png" }

/-- A replied-to message as relayed by the anonymous member's webhook:
its author username is the anonymous display name. -/
def repliedAnon : Message :=
  { channelId := "t1", member := some gmA, authorId := "wh1",
    authorUsername := "Anonymous 1", content := "hello", attachments := [] }

/-- C9: the reply attribution resolves the original author's visible
identity per target instance — when the resolved room member is
anonymous and not a member of the target instance the attribution is
the anonymous display name (`@Anonymous {n}`); otherwise it is a live
user mention; and the composed reply header is prepended, per target
instance, to the relayed content. -/
theorem c9_reply_attribution (s : V3.V3State) (inst : V3.V3Instance)
    (repliedTo : Message) (m : V3.V3Member)
    (hf : V3.findMember s repliedTo.authorUsername = some m) :
    (m.anonymous = true → inst.members.contains m = false →
       V3.getReplyHeader s inst repliedTo
         = (if repliedTo.content.length > 0 then V3.quoteFmt repliedTo.content else "")
             ++ "\n" ++ ("@" ++ m.displayName)) ∧
    ((m.anonymous = false ∨ inst.members.contains m = true) →
       V3.getReplyHeader s inst repliedTo
         = (if repliedTo.content.length > 0 then V3.quoteFmt repliedTo.content else "")
             ++ "\n" ++ V3.userMention m.memberId) ∧
    (∀ (msg : Message) (gm : GuildMember) (rm : V3.V3Member) (src : V3.V3Instance)
        (r : Nat),
        msg.member = some gm → msg.content ≠ "" →
        s.instances.find? (fun i => i.threadId = msg.channelId) = some src →
        src.members.find? (fun mm => mm.memberId = msg.authorId) = some rm →
        V3.synchronizeMessage s msg (some repliedTo) r
          = .ok (s, (s.instances.filter (fun i => i.threadId ≠ msg.channelId)).map
              (fun i => Effect.send i.iid
                { username := some rm.displayName, avatarURL := some rm.avatar,
                  threadId := some i.threadId, embedFooter := none,
                  content := some
                    (V3.getReplyHeader s i repliedTo ++ " " ++ msg.content) }))) := by
  refine ⟨?_, ?_, ?_⟩
  · intro hanon hcont
    have hcont' : m ∉ inst.members := by simpa using hcont
    unfold V3.getReplyHeader
    rw [hf]
    simp [hanon, hcont']
  · intro hvis
    unfold V3.getReplyHeader
    rw [hf]
    rcases hvis with hvis | hvis
    · simp [hvis]
    · have hvis' : m ∈ inst.members := by simpa using hvis
      simp [hvis']
  · intro msg gm rm src r hgm hc hfind hmem
    have hcond : ¬ (msg.member = none ∨ msg.content = "") := by
      rintro (h | h)
      · rw [hgm] at h
        cases h
      · exact hc h
    simp only [V3.synchronizeMessage, V3.getOrCreateRoomMember, if_neg hcond, hfind, hmem]
    simp

/-- Witness for C9: a reply to the anonymous member's relayed message is
attributed in the other instance by the anonymous display name, not a
live mention. -/
theorem c9_witness :
    V3.getReplyHeader sV3 v3instB repliedAnon = "> hello" ++ "\n" ++ "@Anonymous 1" := by
  have h := (c9_reply_attribution sV3 v3instB repliedAnon v3mAnon (by decide)).1
    (by decide) (by decide)
  rw [h]
  decide

end Concord
